import Mathlib

set_option maxRecDepth 4096

/-!
Verification of the geospatial reconciliation pipeline of this repository
(`src/app.py`, with `src/nra.py` holding byte-identical copies of the
parsers).  The pipeline parses WKT geometry text, derives a planar centroid
for polygon rows, projects planar coordinates to geographic ones, and
matches each query GPS point to the nearest facility anchor by haversine
distance.

Modelling conventions:
* Python strings are modelled as `List Char`; the Python string methods the
  source uses (`strip`, `split`, `split(sep, 1)`, `startswith`, `endswith`,
  slicing, `strip("()")`) are given faithful executable models below.
* Python floats are modelled in two layers.  `PyFloat` carries a full
  float value — a finite value kept as an exact rational, `nan`, or `±inf` —
  and `pyFloatF` models the `float()` builtin on strings extensionally:
  the `inf`/`nan`/`infinity` words, PEP 515 underscore literals, and
  saturation of overflowing decimals to `±inf` at the binary64 overflow
  threshold.  Binary rounding of in-range values (including underflow to
  zero) stays abstracted as the exact rational.  The anchor pipeline
  (centroid and projection) uses a finite-rational restriction of the
  parsers, since its coordinates are modelled as exact rationals; the
  parser-exactness claims are settled against the faithful
  `parse_point_full` / `parse_polygon_full`.  The trigonometric distance
  stage works over `ℝ`.
* A cell of a pandas row can hold a non-string value (`None`, `NaN`, a
  number); the inductive `PyVal` models that, mirroring the
  `isinstance(wkt_string, str)` guards of the source.
* `pyproj`'s transformer and `shapely`'s centroid are external binary
  libraries; the transformer is passed as an abstract function parameter
  and the centroid is modelled from the spec (see `centroid_of`).
-/

/-! ## Python string primitives -/

/-- Right strip: removes trailing characters satisfying `p`
(the right half of Python's `str.strip`). -/
def pstripR (p : Char → Bool) (s : List Char) : List Char :=
  (s.reverse.dropWhile p).reverse

/-- Python's `str.strip(chars)`: removes leading and trailing characters
satisfying `p` (right side first; the order is immaterial for the result). -/
def pstripBy (p : Char → Bool) (s : List Char) : List Char :=
  (pstripR p s).dropWhile p

/-- Python's `str.strip()` (no argument): strips whitespace from both ends. -/
def pstrip (s : List Char) : List Char :=
  pstripBy Char.isWhitespace s

/-- Membership test for the two-character set `"()"`. -/
def isParen (c : Char) : Bool :=
  c = '(' || c = ')'

/-- Python's `str.strip("()")` as used on coordinate tokens. -/
def pstripParens (s : List Char) : List Char :=
  pstripBy isParen s

/-- Worker for `psplitWs`: accumulates the current token (reversed). -/
def psplitWsGo : List Char → List Char → List (List Char)
  | [], acc => if acc.isEmpty then [] else [acc.reverse]
  | c :: cs, acc =>
    if c.isWhitespace then
      if acc.isEmpty then psplitWsGo cs [] else acc.reverse :: psplitWsGo cs []
    else
      psplitWsGo cs (c :: acc)

/-- Python's `str.split()` (no argument): splits on runs of whitespace and
never yields empty tokens. -/
def psplitWs (s : List Char) : List (List Char) :=
  psplitWsGo s []

/-- Python's `str.split(sep)` for a one-character separator: keeps empty
pieces, and the split of the empty string is `[""]`. -/
def psplitOn (sep : Char) : List Char → List (List Char)
  | [] => [[]]
  | c :: cs =>
    let r := psplitOn sep cs
    if c = sep then [] :: r
    else
      match r with
      | t :: ts => (c :: t) :: ts
      | [] => [[c]]

/-- Everything after the first occurrence of `sep`, i.e. Python's
`s.split(sep, 1)[1]`; meaningful only when `sep` occurs in `s`. -/
def afterFirstChar (sep : Char) : List Char → List Char
  | [] => []
  | c :: cs => if c = sep then cs else afterFirstChar sep cs

/-- Python's slice `s[:-n]` for `n ≤ len s`. -/
def pdropRight (n : Nat) (s : List Char) : List Char :=
  s.take (s.length - n)

/-! ## Python `float()` on decimal literals -/

/-- Numeric value of a digit string. -/
def digitsToNat (l : List Char) : Nat :=
  l.foldl (fun n c => 10 * n + (c.toNat - 48)) 0

/-- Mantissa of a decimal literal: `digits`, `digits.digits`, `digits.` or
`.digits` (at least one digit overall). -/
def parseMantissa (s : List Char) : Option ℚ :=
  match psplitOn '.' s with
  | [w] =>
    if !w.isEmpty && w.all Char.isDigit then some (digitsToNat w : ℚ) else none
  | [w, f] =>
    if (!w.isEmpty || !f.isEmpty) && w.all Char.isDigit && f.all Char.isDigit then
      some ((digitsToNat w : ℚ) + (digitsToNat f : ℚ) / ((10 : ℚ) ^ f.length))
    else none
  | _ => none

/-- Exponent of a decimal literal: optional sign, then digits. -/
def parseExpPart (s : List Char) : Option ℤ :=
  let sg : ℤ × List Char :=
    match s with
    | '+' :: r => (1, r)
    | '-' :: r => (-1, r)
    | r => (1, r)
  if !sg.2.isEmpty && sg.2.all Char.isDigit then
    some (sg.1 * (digitsToNat sg.2 : ℤ))
  else none

/-- Splits at the first `e`/`E`, returning the mantissa part and, when an
exponent marker is present, the remainder after it. -/
def splitAtExpCh : List Char → List Char × Option (List Char)
  | [] => ([], none)
  | c :: cs =>
    if c = 'e' || c = 'E' then ([], some cs)
    else
      let r := splitAtExpCh cs
      (c :: r.1, r.2)

/-- The finite-decimal fragment of Python's `float()`, valued exactly in
`ℚ`: optional surrounding whitespace, optional sign, decimal mantissa,
optional decimal exponent.  This restriction (no special words, no
underscore literals, no overflow saturation) is what the finite-rational
anchor pipeline consumes; the extensionally faithful model of `float()` is
`pyFloatF` below. -/
def pyFloat? (s : List Char) : Option ℚ :=
  let t := pstrip s
  let sg : ℚ × List Char :=
    match t with
    | '+' :: r => (1, r)
    | '-' :: r => (-1, r)
    | r => (1, r)
  let me := splitAtExpCh sg.2
  match parseMantissa me.1, me.2 with
  | some q, none => some (sg.1 * q)
  | some q, some es =>
    match parseExpPart es with
    | some e => some (sg.1 * q * (10 : ℚ) ^ e)
    | none => none
  | none, _ => none

/-! ## Python cell values -/

/-- A value held by a cell of a pandas row: a string, `None`, or one of the
float shapes (`NaN`, `±inf`, a finite number), or an integer.  The parsers
of the source accept arbitrary cell values and guard on
`isinstance(wkt_string, str)`. -/
inductive PyVal where
  | pyStr (s : List Char)
  | pyNone
  | pyNaN
  | pyInf
  | pyNinf
  | pyInt (n : ℤ)
  | pyFloatV (q : ℚ)
deriving DecidableEq

/-- True exactly on string cells. -/
def PyVal.isStr : PyVal → Bool
  | .pyStr _ => true
  | _ => false

/-- A Python float: a finite value (exact in `ℚ`), `nan`, or `±inf`. -/
inductive PyFloat where
  | num (q : ℚ)
  | nan
  | inf
  | ninf
deriving DecidableEq

/-- Python's `math.isnan`. -/
def PyFloat.isNaN : PyFloat → Bool
  | .nan => true
  | _ => false

/-! ## Python `float()` in full (special words, underscores, overflow) -/

/-- Tail of a PEP 515 digit part: digits, with single underscores allowed
only between digits. -/
def isDigitPartRest : List Char → Bool
  | [] => true
  | ['_'] => false
  | '_' :: c :: cs => c.isDigit && isDigitPartRest cs
  | c :: cs => c.isDigit && isDigitPartRest cs

/-- A PEP 515 digit part: non-empty, starts and ends with a digit, single
underscores only between digits.  (ASCII digits, as in the WKT data;
Python additionally maps non-ASCII decimal digits, outside this model.) -/
def isDigitPart : List Char → Bool
  | [] => false
  | c :: cs => c.isDigit && isDigitPartRest cs

/-- Numeric value of a digit part, underscores ignored. -/
def digitPartNat (l : List Char) : Nat :=
  digitsToNat (l.filter (fun c => c != '_'))

/-- Number of digits of a digit part (underscores not counted). -/
def digitPartLen (l : List Char) : Nat :=
  (l.filter (fun c => c != '_')).length

/-- Mantissa of a `float()` literal with underscore support: `d`, `d.d`,
`d.` or `.d` where `d` is a digit part. -/
def parseMantissaF (s : List Char) : Option ℚ :=
  match psplitOn '.' s with
  | [w] => if isDigitPart w then some (digitPartNat w : ℚ) else none
  | [w, f] =>
    if isDigitPart w && (f.isEmpty || isDigitPart f) then
      some ((digitPartNat w : ℚ) + (digitPartNat f : ℚ) / ((10 : ℚ) ^ digitPartLen f))
    else if w.isEmpty && isDigitPart f then
      some ((digitPartNat f : ℚ) / ((10 : ℚ) ^ digitPartLen f))
    else none
  | _ => none

/-- Exponent of a `float()` literal: optional sign, then a digit part. -/
def parseExpPartF (s : List Char) : Option ℤ :=
  let sg : ℤ × List Char :=
    match s with
    | '+' :: r => (1, r)
    | '-' :: r => (-1, r)
    | r => (1, r)
  if isDigitPart sg.2 then some (sg.1 * (digitPartNat sg.2 : ℤ)) else none

/-- The IEEE 754 binary64 overflow threshold under round-to-nearest-even:
a decimal value of magnitude at least `2 ^ 1024 - 2 ^ 970` converts to an
infinity; strictly below it, to the largest finite doubles. -/
def binary64OverflowBound : ℚ :=
  ((2 ^ 1024 - 2 ^ 970 : ℕ) : ℚ)

/-- CPython's saturation when converting a decimal string: out-of-range
magnitudes become `±inf` (no exception is raised); in-range values are
kept as the exact rational. -/
def saturate (q : ℚ) : PyFloat :=
  if binary64OverflowBound ≤ q then .inf
  else if q ≤ -binary64OverflowBound then .ninf
  else .num q

/-- Python's `float()` on an arbitrary string, extensionally: optional
surrounding whitespace and sign, then either one of the words
`inf`/`infinity`/`nan` (case-insensitive) or a decimal literal with
optional underscores and exponent, overflow saturating to `±inf`; `none`
exactly when `float()` raises `ValueError`. -/
def pyFloatF (s : List Char) : Option PyFloat :=
  let t := pstrip s
  let sg : Bool × List Char :=
    match t with
    | '+' :: r => (false, r)
    | '-' :: r => (true, r)
    | r => (false, r)
  let low := sg.2.map Char.toLower
  if low = ("inf".toList) || low = ("infinity".toList) then
    some (if sg.1 then .ninf else .inf)
  else if low = ("nan".toList) then
    some .nan
  else
    let me := splitAtExpCh sg.2
    match parseMantissaF me.1, me.2 with
    | some q, none => some (saturate (if sg.1 then -q else q))
    | some q, some es =>
      match parseExpPartF es with
      | some e => some (saturate ((if sg.1 then -q else q) * (10 : ℚ) ^ e))
      | none => none
    | none, _ => none

/-- Python's `float(cell)` on a pandas cell, `none` exactly when it raises
(`ValueError` on a malformed string, `TypeError` on `None`): string cells
go through the full `pyFloatF`, float cells already are floats, integer
cells are exact. -/
def toFloat? (v : PyVal) : Option PyFloat :=
  match v with
  | .pyStr s => pyFloatF s
  | .pyNone => none
  | .pyNaN => some .nan
  | .pyInf => some .inf
  | .pyNinf => some .ninf
  | .pyInt n => some (.num (n : ℚ))
  | .pyFloatV q => some (.num q)

/-! ## WKT parsers (src/app.py lines 22–75, src/nra.py lines 6–59) -/

/-- Conversion of one whitespace-separated coordinate token,
`float(tok.strip("()"))`, restricted to the finite-decimal fragment (the
anchor pipeline's rational coordinate model); the faithful conversion is
`tokenFloatF` below. -/
def tokenFloat? (tok : List Char) : Option ℚ :=
  pyFloat? (pstripParens tok)

/-- Translation of `parse_point` (src/app.py lines 22–40): after trimming,
the text must start with `POINT(` and end with `)`; the slice between them
must split into exactly two whitespace tokens, each convertible by
`float(part.strip("()"))`; otherwise `None` is returned (a raised
`ValueError` is caught and also yields `None`).  Coordinates are valued in
the finite-rational model consumed by the anchor pipeline; the
extensionally faithful translation over full Python floats is
`parse_point_full` below. -/
def parse_point (wkt : PyVal) : Option (ℚ × ℚ) :=
  match wkt with
  | .pyStr s =>
    let t := pstrip s
    if (("POINT(".toList).isPrefixOf t) && (([')']).isSuffixOf t) then
      let body := pstrip (pdropRight 1 (t.drop 6))
      match psplitWs body with
      | [p1, p2] =>
        match tokenFloat? p1, tokenFloat? p2 with
        | some x, some y => some (x, y)
        | _, _ => none
      | _ => none
    else none
  | _ => none

/-- Shape stage of `parse_polygon` (src/app.py lines 48–60): the input must
be a string; after trimming, everything after the first `;` (if any) is
taken and trimmed; the remainder must start with `POLYGON((` and end with
`))`, and the coordinate body between them is returned. -/
def polyBody (wkt : PyVal) : Option (List Char) :=
  match wkt with
  | .pyStr s =>
    let t := pstrip s
    let geom := if ';' ∈ t then pstrip (afterFirstChar ';' t) else t
    if (("POLYGON((".toList).isPrefixOf geom) && (("))".toList).isSuffixOf geom) then
      some (pdropRight 2 (geom.drop 9))
    else none
  | _ => none

/-- Loop body of `parse_polygon` (src/app.py lines 62–75): each
comma-separated pair is trimmed and split on whitespace; exactly-two-token
pairs whose tokens convert (after `strip("()")`) are appended; a conversion
failure is logged and the pair skipped; other token counts are skipped
silently. -/
def pairsLoop (ps : List (List Char)) : List (ℚ × ℚ) :=
  ps.foldl
    (fun acc pair =>
      match psplitWs (pstrip pair) with
      | [a, b] =>
        match tokenFloat? a, tokenFloat? b with
        | some x, some y => acc ++ [(x, y)]
        | _, _ => acc
      | _ => acc)
    []

/-- Translation of `parse_polygon` (src/app.py lines 42–75), in the
finite-rational coordinate model consumed by the anchor pipeline; the
extensionally faithful translation over full Python floats is
`parse_polygon_full` below. -/
def parse_polygon (wkt : PyVal) : List (ℚ × ℚ) :=
  match polyBody wkt with
  | some coords => pairsLoop (psplitOn ',' coords)
  | none => []

/-! ## The WKT parsers over full Python floats

`parse_point` and `parse_polygon` above value their coordinates in `ℚ`,
matching the finite-rational coordinate model of the anchor pipeline
(`processRow` below feeds them to the planar centroid).  The source's
`float()` also succeeds on `inf`/`nan` words, underscore literals and
overflowing decimals, so the extensionally faithful translations carry
full `PyFloat` values; the shape logic is character-for-character the
same. -/

/-- Conversion of one coordinate token, `float(tok.strip("()"))`, over
full Python floats. -/
def tokenFloatF (tok : List Char) : Option PyFloat :=
  pyFloatF (pstripParens tok)

/-- Translation of `parse_point` (src/app.py lines 22–40) over full Python
floats: extensionally faithful, including tokens such as `inf` or `1_0`
that `float()` accepts. -/
def parse_point_full (wkt : PyVal) : Option (PyFloat × PyFloat) :=
  match wkt with
  | .pyStr s =>
    let t := pstrip s
    if (("POINT(".toList).isPrefixOf t) && (([')']).isSuffixOf t) then
      let body := pstrip (pdropRight 1 (t.drop 6))
      match psplitWs body with
      | [p1, p2] =>
        match tokenFloatF p1, tokenFloatF p2 with
        | some x, some y => some (x, y)
        | _, _ => none
      | _ => none
    else none
  | _ => none

/-- Loop body of `parse_polygon` (src/app.py lines 62–75) over full Python
floats. -/
def pairsLoopF (ps : List (List Char)) : List (PyFloat × PyFloat) :=
  ps.foldl
    (fun acc pair =>
      match psplitWs (pstrip pair) with
      | [a, b] =>
        match tokenFloatF a, tokenFloatF b with
        | some x, some y => acc ++ [(x, y)]
        | _, _ => acc
      | _ => acc)
    []

/-- Translation of `parse_polygon` (src/app.py lines 42–75) over full
Python floats (the shape stage `polyBody` is shared). -/
def parse_polygon_full (wkt : PyVal) : List (PyFloat × PyFloat) :=
  match polyBody wkt with
  | some coords => pairsLoopF (psplitOn ',' coords)
  | none => []

/-- Independent per-pair conversion over full Python floats, used to state
that the loop builds the polygon from exactly the pairs whose tokens
`float()` accepts, in order, skipping failures. -/
def pairOfF (pair : List Char) : Option (PyFloat × PyFloat) :=
  match psplitWs (pstrip pair) with
  | [a, b] =>
    match tokenFloatF a, tokenFloatF b with
    | some x, some y => some (x, y)
    | _, _ => none
  | _ => none

/-- Follows the spec's words (§4.1, claim C4): after trimming, the text
must exactly match `POINT(<x> <y>)` with exactly two whitespace-separated
numeric tokens — numeric meaning `float()` accepts the token as written.
(The source's additional `strip("()")` on the tokens is deliberately
absent here.) -/
def pointSpec (wkt : PyVal) : Option (PyFloat × PyFloat) :=
  match wkt with
  | .pyStr s =>
    let t := pstrip s
    if (("POINT(".toList).isPrefixOf t) && (([')']).isSuffixOf t) then
      let body := pstrip (pdropRight 1 (t.drop 6))
      match psplitWs body with
      | [p1, p2] =>
        match pyFloatF p1, pyFloatF p2 with
        | some x, some y => some (x, y)
        | _, _ => none
      | _ => none
    else none
  | _ => none

/- Core marks the basic `Rat` operations irreducible; re-opening them (for
the remainder of this file) lets `decide` evaluate the parsers and the
pipeline on concrete inputs. -/
section RatReducible

attribute [local semireducible] Rat.mul Rat.add Rat.sub Rat.inv

/-! ## Centroid and projection (src/app.py lines 77–94 and 201–221) -/

/-- Closes a vertex ring by repeating the first vertex, as WKT rings are
closed and shapely closes an open ring automatically. -/
def ringClose (ps : List (ℚ × ℚ)) : List (ℚ × ℚ) :=
  match ps with
  | [] => []
  | p :: _ => ps ++ [p]

/-- Twice the signed area of a closed ring (shoelace sum). -/
def crossSum (ring : List (ℚ × ℚ)) : ℚ :=
  (ring.zip ring.tail).foldl
    (fun acc pq => acc + (pq.1.1 * pq.2.2 - pq.2.1 * pq.1.2)) 0

/-- Shoelace moment sum for the x coordinate. -/
def cxSum (ring : List (ℚ × ℚ)) : ℚ :=
  (ring.zip ring.tail).foldl
    (fun acc pq => acc + (pq.1.1 + pq.2.1) * (pq.1.1 * pq.2.2 - pq.2.1 * pq.1.2)) 0

/-- Shoelace moment sum for the y coordinate. -/
def cySum (ring : List (ℚ × ℚ)) : ℚ :=
  (ring.zip ring.tail).foldl
    (fun acc pq => acc + (pq.1.2 + pq.2.2) * (pq.1.1 * pq.2.2 - pq.2.1 * pq.1.2)) 0

/-- Modelled from the spec: `shapely.geometry.Polygon(coords).centroid`
(§4.2) is the area-weighted planar centroid by the standard polygon
centroid formula, computed on the raw planar vertices; the computation
fails — the source catches the raised exception — when the vertex list has
fewer than 3 points or the polygon is degenerate (zero area).  The shapely
library is an external binary dependency, not part of this repository's
sources, so it is embedded from the spec's description. -/
def centroid_of (ps : List (ℚ × ℚ)) : Option (ℚ × ℚ) :=
  if ps.length < 3 then none
  else
    let ring := ringClose ps
    let a2 := crossSum ring
    if a2 = 0 then none
    else some (cxSum ring / (3 * a2), cySum ring / (3 * a2))

/-- Translation of `transform_point` (src/app.py lines 88–94).  Modelled
from the spec in one respect: the pyproj transformer (external library,
initialized once with `always_xy=True`) is an abstract pure function taking
planar `(x, y)` to `(longitude, latitude)`; `transform_point` returns the
swapped pair `(latitude, longitude)`. -/
def transform_point (x y : ℚ) (transformer : ℚ × ℚ → ℚ × ℚ) : ℚ × ℚ :=
  ((transformer (x, y)).2, (transformer (x, y)).1)

/-- One facility row of the NRA CSV: its identifier and the two geometry
text cells used by the table construction (src/app.py lines 202–204). -/
structure FacilityRow (Fid : Type) where
  fid : Fid
  the_geom : PyVal
  osm_original_geom : PyVal

/-- Anchor construction for one facility row (src/app.py lines 202–221):
if the polygon field parses non-empty, try the centroid (a failure inside
the `try` block — shapely construction or centroid — falls back to the
point field, lines 211–216); otherwise parse the point field directly
(lines 217–221); a row whose applicable parse fails contributes nothing. -/
def processRow {Fid : Type} (transformer : ℚ × ℚ → ℚ × ℚ)
    (row : FacilityRow Fid) : Option ((ℚ × ℚ) × Fid) :=
  let poly_raw := parse_polygon row.osm_original_geom
  if poly_raw.isEmpty then
    match parse_point row.the_geom with
    | some pt => some (transform_point pt.1 pt.2 transformer, row.fid)
    | none => none
  else
    match centroid_of poly_raw with
    | some c => some (transform_point c.1 c.2 transformer, row.fid)
    | none =>
      match parse_point row.the_geom with
      | some pt => some (transform_point pt.1 pt.2 transformer, row.fid)
      | none => none

/-- The facility locator table (src/app.py lines 201–221): the anchors of
the rows that contribute one, in row order. -/
def buildNraPoints {Fid : Type} (transformer : ℚ × ℚ → ℚ × ℚ)
    (rows : List (FacilityRow Fid)) : List ((ℚ × ℚ) × Fid) :=
  rows.foldl
    (fun acc row =>
      match processRow transformer row with
      | some a => acc ++ [a]
      | none => acc)
    []

/-! ## GPS query rows (src/app.py lines 115–183) -/

/-- One row of the fiab GPS CSV: the two coordinate cells (the `Libelle`
label cell is carried through to the output unchanged and plays no role in
the claims). -/
structure QueryRow where
  latitude : PyVal
  longitude : PyVal
deriving DecidableEq

/-- What the loop body of `process_and_add_gps_points` does with one row
(src/app.py lines 134–180). -/
inductive GpsRowOutcome where
  | skipped
  | record (lat lon : ℚ)
  | crash
deriving DecidableEq

/-- Per-row behaviour of the GPS loop (src/app.py lines 134–180): a row
whose `float(...)` conversion raises is skipped (lines 135–140), a row with
a NaN coordinate is skipped (lines 141–143), a row with two finite
coordinates produces exactly one result record (lines 145–180).  A row with
an infinite coordinate passes both guards and reaches
`haversine_distance`, where `math.sin` of an infinite argument raises an
uncaught `ValueError` (line 149 via lines 12–16), aborting the whole run:
outcome `crash`. -/
def gpsRowOutcome (row : QueryRow) : GpsRowOutcome :=
  match toFloat? row.latitude, toFloat? row.longitude with
  | some la, some lo =>
    if la.isNaN || lo.isNaN then .skipped
    else
      match la, lo with
      | .num a, .num b => .record a b
      | _, _ => .crash
  | _, _ => .skipped

/-- The accepted coordinates of a row, when it yields a match record. -/
def recordOf (row : QueryRow) : Option (ℚ × ℚ) :=
  match gpsRowOutcome row with
  | .record a b => some (a, b)
  | _ => none

/-- The query loop of `process_and_add_gps_points` (src/app.py lines
134–182), tracking which rows produce match records: `none` models an
uncaught exception aborting the batch, `some rs` the query coordinates of
the produced records in row order.  (The content of each record — the
nearest anchor and its distance — is the matter of `nearestNra` below; the
table is non-empty whenever this loop runs, see `mainRun`.) -/
def processGps : List QueryRow → Option (List (ℚ × ℚ))
  | [] => some []
  | r :: rs =>
    match gpsRowOutcome r with
    | .skipped => processGps rs
    | .record a b => (processGps rs).map (fun l => (a, b) :: l)
    | .crash => none

/-! ## The run skeleton (src/app.py `main`, lines 187–286) -/

/-- How a run of `main` ends, as far as match output is concerned. -/
inductive RunResult where
  | emptyTable
  | crashed
  | output (records : List (ℚ × ℚ))
deriving DecidableEq

/-- Skeleton of `main` (src/app.py lines 187–286): the facility locator
table is built once; if it is empty the run reports and returns before any
matching (lines 222–224); otherwise the GPS rows are matched and the
resulting records exported. -/
def mainRun {Fid : Type} (transformer : ℚ × ℚ → ℚ × ℚ)
    (facilityRows : List (FacilityRow Fid)) (queryRows : List QueryRow) :
    RunResult :=
  let nra_points := buildNraPoints transformer facilityRows
  if nra_points.isEmpty then .emptyTable
  else
    match processGps queryRows with
    | none => .crashed
    | some rs => .output rs


/-! ## Distance stage (src/app.py lines 7–18 and 145–152)

The query loop runs on Python floats; the trigonometric stage is modelled
over `ℝ` (the mathematical values the float code approximates), which keeps
the geometry exact.  Everything here is necessarily noncomputable. -/

/-- Translation of `math.radians`: degrees to radians. -/
noncomputable def radians (x : ℝ) : ℝ :=
  x * Real.pi / 180

/-- Model of `math.atan2 y x` on the reals (signed zeros collapse to `0`,
so `atan2 0 0 = 0` as in CPython). -/
noncomputable def atan2 (y x : ℝ) : ℝ :=
  if 0 < x then Real.arctan (y / x)
  else if x < 0 then
    (if 0 ≤ y then Real.arctan (y / x) + Real.pi else Real.arctan (y / x) - Real.pi)
  else
    (if 0 < y then Real.pi / 2 else if y < 0 then -(Real.pi / 2) else 0)

/-- The intermediate `a` of `haversine_distance` (src/app.py line 16): both
square roots of line 17 are applied to `a` and `1 - a`. -/
noncomputable def havA (lat1 lon1 lat2 lon2 : ℝ) : ℝ :=
  Real.sin (radians (lat2 - lat1) / 2) ^ 2 +
    Real.cos (radians lat1) * Real.cos (radians lat2) *
      Real.sin (radians (lon2 - lon1) / 2) ^ 2

/-- Translation of `haversine_distance` (src/app.py lines 7–18): the
`atan2`-based haversine great-circle distance with mean Earth radius
6371 km. -/
noncomputable def haversine_distance (lat1 lon1 lat2 lon2 : ℝ) : ℝ :=
  6371 * (2 * atan2 (Real.sqrt (havA lat1 lon1 lat2 lon2))
    (Real.sqrt (1 - havA lat1 lon1 lat2 lon2)))

/-- Distance from the query point `(lat, lon)` to one anchor of the table
(anchors are `(lat, lon, fid)` triples, src/app.py line 148). -/
noncomputable def havTo {Fid : Type} (lat lon : ℝ) (p : ℝ × ℝ × Fid) : ℝ :=
  haversine_distance lat lon p.1 p.2.1

/-- One iteration of the nearest-NRA scan (src/app.py lines 148–152): the
running state holds `(closest_nra, min_distance)`, `none` before the first
anchor; the pair is replaced exactly when `min_distance is None` or the new
distance is strictly smaller. -/
noncomputable def nearestStep {Fid : Type} (lat lon : ℝ)
    (acc : Option ((ℝ × ℝ × Fid) × ℝ)) (p : ℝ × ℝ × Fid) :
    Option ((ℝ × ℝ × Fid) × ℝ) :=
  match acc with
  | none => some (p, havTo lat lon p)
  | some (b, db) =>
    if havTo lat lon p < db then some (p, havTo lat lon p) else some (b, db)

/-- The nearest-NRA scan of `process_and_add_gps_points` (src/app.py lines
145–152): an exhaustive fold over the anchor table starting from
`min_distance = None`. -/
noncomputable def nearestNra {Fid : Type} (lat lon : ℝ)
    (nra_points : List (ℝ × ℝ × Fid)) : Option ((ℝ × ℝ × Fid) × ℝ) :=
  nra_points.foldl (nearestStep lat lon) none


/-! ## Lemmas: the haversine intermediate stays in the domain of `sqrt` -/

/-- Core trigonometric bound: for all real angles, the haversine
intermediate `sin²((v-u)/2) + cos u · cos v · sin² w` lies in `[0, 1]`. -/
lemma haversineAux_bounds (u v w : ℝ) :
    0 ≤ Real.sin ((v - u) / 2) ^ 2 + Real.cos u * Real.cos v * Real.sin w ^ 2 ∧
      Real.sin ((v - u) / 2) ^ 2 + Real.cos u * Real.cos v * Real.sin w ^ 2 ≤ 1 := by
  have h1 : Real.sin ((v - u) / 2) ^ 2 = 1 / 2 - Real.cos (v - u) / 2 := by
    have h := Real.sin_sq_eq_half_sub ((v - u) / 2)
    rwa [show 2 * ((v - u) / 2) = v - u by ring] at h
  have hsub : Real.cos (v - u) = Real.cos v * Real.cos u + Real.sin v * Real.sin u :=
    Real.cos_sub v u
  have hadd : Real.cos (v + u) = Real.cos v * Real.cos u - Real.sin v * Real.sin u :=
    Real.cos_add v u
  have hb1 : -1 ≤ Real.cos (v + u) := Real.neg_one_le_cos _
  have hb2 : Real.cos (v + u) ≤ 1 := Real.cos_le_one _
  have hb3 : -1 ≤ Real.cos (v - u) := Real.neg_one_le_cos _
  have hb4 : Real.cos (v - u) ≤ 1 := Real.cos_le_one _
  have ht0 : 0 ≤ Real.sin w ^ 2 := sq_nonneg _
  have ht1 : Real.sin w ^ 2 ≤ 1 := Real.sin_sq_le_one w
  rcases le_or_lt 0 (Real.cos u * Real.cos v) with hC | hC
  · constructor
    · nlinarith [mul_nonneg hC ht0]
    · nlinarith [mul_le_mul_of_nonneg_left ht1 hC]
  · constructor
    · nlinarith [mul_le_mul_of_nonpos_left ht1 hC.le]
    · nlinarith [mul_nonpos_of_nonpos_of_nonneg hC.le ht0]

/-- `radians` is linear over subtraction. -/
lemma radians_sub (a b : ℝ) : radians (a - b) = radians a - radians b := by
  unfold radians; ring

/-- The argument of both square roots of `haversine_distance` lies in
`[0, 1]`: neither `sqrt` call leaves its domain, for any real inputs. -/
lemma havA_bounds (lat1 lon1 lat2 lon2 : ℝ) :
    0 ≤ havA lat1 lon1 lat2 lon2 ∧ havA lat1 lon1 lat2 lon2 ≤ 1 := by
  have h := haversineAux_bounds (radians lat1) (radians lat2)
    (radians (lon2 - lon1) / 2)
  unfold havA
  rw [radians_sub lat2 lat1]
  exact h

/-- `atan2` of a non-negative first argument is non-negative. -/
lemma atan2_nonneg {y x : ℝ} (hy : 0 ≤ y) : 0 ≤ atan2 y x := by
  unfold atan2
  rcases lt_trichotomy x 0 with hx | hx | hx
  · have hnx : ¬ 0 < x := by linarith
    rw [if_neg hnx, if_pos hx, if_pos hy]
    linarith [Real.neg_pi_div_two_lt_arctan (y / x), Real.pi_pos]
  · subst hx
    rw [if_neg (lt_irrefl 0), if_neg (lt_irrefl 0)]
    rcases hy.eq_or_lt with he | hlt
    · rw [if_neg (by rw [← he]; exact lt_irrefl 0), if_neg (by rw [← he]; exact lt_irrefl 0)]
    · rw [if_pos hlt]
      linarith [Real.pi_pos]
  · rw [if_pos hx]
    rw [show (0 : ℝ) = Real.arctan 0 from Real.arctan_zero.symm]
    exact Real.arctan_strictMono.monotone (div_nonneg hy hx.le)

/-- The haversine distance is non-negative for all real inputs. -/
lemma haversine_nonneg (lat1 lon1 lat2 lon2 : ℝ) :
    0 ≤ haversine_distance lat1 lon1 lat2 lon2 := by
  unfold haversine_distance
  have h := atan2_nonneg (x := Real.sqrt (1 - havA lat1 lon1 lat2 lon2))
    (Real.sqrt_nonneg (havA lat1 lon1 lat2 lon2))
  positivity

/-- The haversine intermediate vanishes on coincident points. -/
lemma havA_self (lat lon : ℝ) : havA lat lon lat lon = 0 := by
  simp [havA, radians, sub_self]

/-- `atan2 0 1 = 0`, as for `math.atan2`. -/
lemma atan2_zero_one : atan2 (0 : ℝ) 1 = 0 := by
  norm_num [atan2, Real.arctan_zero]

/-- The haversine distance between coincident points is exactly `0`. -/
lemma haversine_self (lat lon : ℝ) : haversine_distance lat lon lat lon = 0 := by
  unfold haversine_distance
  rw [havA_self]
  norm_num [Real.sqrt_zero, Real.sqrt_one, atan2_zero_one]


/-! ## Lemmas: the nearest-NRA scan -/

/-- Invariant of the scan loop: folding from an accumulator holding anchor
`b` (with its distance) yields an anchor `c` with the stored distance equal
to `c`'s distance, no larger than `b`'s and than any scanned anchor's, and
`c` is either `b` itself or the first strictly-closer anchor in the scanned
suffix. -/
lemma nearestNra_go {Fid : Type} (lat lon : ℝ) :
    ∀ (l : List (ℝ × ℝ × Fid)) (b : ℝ × ℝ × Fid),
      ∃ c, List.foldl (nearestStep lat lon) (some (b, havTo lat lon b)) l
          = some (c, havTo lat lon c) ∧
        havTo lat lon c ≤ havTo lat lon b ∧
        (∀ p ∈ l, havTo lat lon c ≤ havTo lat lon p) ∧
        (c = b ∨ ∃ l1 l2, l = l1 ++ c :: l2 ∧
          havTo lat lon c < havTo lat lon b ∧
          ∀ p ∈ l1, havTo lat lon c < havTo lat lon p) := by
  intro l
  induction l with
  | nil =>
    intro b
    exact ⟨b, rfl, le_refl _, by simp, Or.inl rfl⟩
  | cons p rest ih =>
    intro b
    rw [List.foldl_cons]
    by_cases hlt : havTo lat lon p < havTo lat lon b
    · obtain ⟨c, hfold, hcb, hall, hpos⟩ := ih p
      have hstep : nearestStep lat lon (some (b, havTo lat lon b)) p
          = some (p, havTo lat lon p) := by
        simp [nearestStep, hlt]
      refine ⟨c, by rw [hstep]; exact hfold, hcb.trans hlt.le, ?_, ?_⟩
      · intro q hq
        rcases List.mem_cons.mp hq with hq | hq
        · rw [hq]; exact hcb
        · exact hall q hq
      · rcases hpos with hcp | ⟨l1, l2, hdec, hlt', hstr⟩
        · refine Or.inr ⟨[], rest, by rw [hcp]; rfl, ?_, by simp⟩
          rw [hcp]; exact hlt
        · refine Or.inr ⟨p :: l1, l2, by rw [hdec]; rfl, hlt'.trans hlt, ?_⟩
          intro q hq
          rcases List.mem_cons.mp hq with hq | hq
          · rw [hq]; exact hlt'
          · exact hstr q hq
    · obtain ⟨c, hfold, hcb, hall, hpos⟩ := ih b
      have hstep : nearestStep lat lon (some (b, havTo lat lon b)) p
          = some (b, havTo lat lon b) := by
        simp [nearestStep, hlt]
      have hbp : havTo lat lon b ≤ havTo lat lon p := le_of_not_lt hlt
      refine ⟨c, by rw [hstep]; exact hfold, hcb, ?_, ?_⟩
      · intro q hq
        rcases List.mem_cons.mp hq with hq | hq
        · rw [hq]; exact hcb.trans hbp
        · exact hall q hq
      · rcases hpos with hcb' | ⟨l1, l2, hdec, hlt', hstr⟩
        · exact Or.inl hcb'
        · refine Or.inr ⟨p :: l1, l2, by rw [hdec]; rfl, hlt', ?_⟩
          intro q hq
          rcases List.mem_cons.mp hq with hq | hq
          · rw [hq]; exact lt_of_lt_of_le hlt' hbp
          · exact hstr q hq

/-- C1.  For every non-empty anchor table and every query coordinate, the
scan of src/app.py lines 145–152 returns an anchor together with its own
haversine distance to the query; that distance is non-negative and minimal
over the whole table; and the table decomposes around the returned anchor
so that every anchor strictly earlier in table order is strictly farther —
the returned anchor is the first one attaining the minimum under the
strict `<` update. -/
theorem nearest_scan_exact_first_min {Fid : Type} (lat lon : ℝ)
    (pts : List (ℝ × ℝ × Fid)) (hne : pts ≠ []) :
    ∃ best d, nearestNra lat lon pts = some (best, d) ∧
      d = havTo lat lon best ∧ 0 ≤ d ∧
      (∀ p ∈ pts, d ≤ havTo lat lon p) ∧
      ∃ l1 l2, pts = l1 ++ best :: l2 ∧ ∀ p ∈ l1, d < havTo lat lon p := by
  match pts with
  | [] => exact absurd rfl hne
  | a :: l =>
    obtain ⟨c, hfold, hcb, hall, hpos⟩ := nearestNra_go lat lon l a
    have hrun : nearestNra lat lon (a :: l) = some (c, havTo lat lon c) := by
      rw [nearestNra, List.foldl_cons]
      exact hfold
    refine ⟨c, havTo lat lon c, hrun, rfl, haversine_nonneg lat lon c.1 c.2.1, ?_, ?_⟩
    · intro q hq
      rcases List.mem_cons.mp hq with hq | hq
      · rw [hq]; exact hcb
      · exact hall q hq
    · rcases hpos with hca | ⟨l1, l2, hdec, hlt', hstr⟩
      · exact ⟨[], l, by rw [hca]; rfl, by simp⟩
      · refine ⟨a :: l1, l2, by rw [hdec]; rfl, ?_⟩
        intro q hq
        rcases List.mem_cons.mp hq with hq | hq
        · rw [hq]; exact hlt'
        · exact hstr q hq

/-- Witness for C1 at a concrete one-anchor table. -/
theorem nearest_scan_exact_first_min_witness :
    ∃ best d,
      nearestNra (0 : ℝ) 0 [((0 : ℝ), (0 : ℝ), (0 : Nat))] = some (best, d) ∧
      d = havTo 0 0 best ∧ 0 ≤ d ∧
      (∀ p ∈ [((0 : ℝ), (0 : ℝ), (0 : Nat))], d ≤ havTo 0 0 p) ∧
      ∃ l1 l2, [((0 : ℝ), (0 : ℝ), (0 : Nat))] = l1 ++ best :: l2 ∧
        ∀ p ∈ l1, d < havTo 0 0 p :=
  nearest_scan_exact_first_min 0 0 [((0 : ℝ), (0 : ℝ), (0 : Nat))] (by simp)

/-- C7.  `haversine_distance` is total on all real degree inputs: the
intermediate `a` always lies in `[0, 1]`, so both `math.sqrt` calls stay in
their domain (no `ValueError`) and the `atan2` form needs no division; the
result is always non-negative; and coincident points give exactly `0`.
Antipodal points are just an instance of the universal statement. -/
theorem haversine_total_nonneg_zero_on_coincident :
    (∀ lat1 lon1 lat2 lon2 : ℝ,
      0 ≤ havA lat1 lon1 lat2 lon2 ∧ havA lat1 lon1 lat2 lon2 ≤ 1 ∧
        0 ≤ haversine_distance lat1 lon1 lat2 lon2) ∧
    ∀ lat lon : ℝ, haversine_distance lat lon lat lon = 0 := by
  constructor
  · intro lat1 lon1 lat2 lon2
    obtain ⟨h0, h1⟩ := havA_bounds lat1 lon1 lat2 lon2
    exact ⟨h0, h1, haversine_nonneg lat1 lon1 lat2 lon2⟩
  · exact haversine_self


/-! ## Lemmas: facility anchors -/

/-- A successful centroid needs at least 3 vertices. -/
lemma centroid_of_length {ps : List (ℚ × ℚ)} {c : ℚ × ℚ}
    (h : centroid_of ps = some c) : 3 ≤ ps.length := by
  unfold centroid_of at h
  by_cases h3 : ps.length < 3
  · rw [if_pos h3] at h
    exact absurd h (by simp)
  · omega

/-- C2.  Anchor construction for one facility row: when the centroid of the
parsed polygon succeeds, the anchor is the projected centroid (polygon
priority); when the polygon parse is empty or the centroid computation
fails, the row falls back to the point field, contributing the projected
raw point if it parses and nothing otherwise.  The `Option` result type
records that a row contributes at most one anchor. -/
theorem facility_anchor_priority_fallback {Fid : Type}
    (transformer : ℚ × ℚ → ℚ × ℚ) (row : FacilityRow Fid) :
    (∀ c, centroid_of (parse_polygon row.osm_original_geom) = some c →
      processRow transformer row
        = some (transform_point c.1 c.2 transformer, row.fid)) ∧
    ((parse_polygon row.osm_original_geom = [] ∨
        centroid_of (parse_polygon row.osm_original_geom) = none) →
      processRow transformer row
        = (parse_point row.the_geom).map
            (fun pt => (transform_point pt.1 pt.2 transformer, row.fid))) := by
  constructor
  · intro c hc
    have h3 := centroid_of_length hc
    rcases hp : parse_polygon row.osm_original_geom with _ | ⟨a, l⟩
    · rw [hp] at h3; simp at h3
    · rw [hp] at hc
      simp [processRow, hp, hc]
  · intro hor
    rcases hor with hemp | hcent
    · simp only [processRow, hemp, List.isEmpty_nil, if_true]
      cases hpt : parse_point row.the_geom <;> simp [hpt]
    · rcases hp : parse_polygon row.osm_original_geom with _ | ⟨a, l⟩
      · simp only [processRow, hp, List.isEmpty_nil, if_true]
        cases hpt : parse_point row.the_geom <;> simp [hpt]
      · rw [hp] at hcent
        simp only [processRow, hp, List.isEmpty_cons, if_false, hcent]
        cases hpt : parse_point row.the_geom <;> simp [hpt]

/-- Witness for C2: a row whose polygon is a unit-free planar square and
whose point field is absent gets the projected centroid as its anchor
(with the identity as projection context, `transform_point` only swaps the
pair). -/
theorem facility_anchor_priority_fallback_witness :
    processRow (fun p => p)
        ⟨(1 : Nat), PyVal.pyNone, PyVal.pyStr ("POLYGON((0 0,10 0,10 10,0 10))".toList)⟩
      = some ((5, 5), 1) :=
  (facility_anchor_priority_fallback (fun p => p)
      ⟨(1 : Nat), PyVal.pyNone, PyVal.pyStr ("POLYGON((0 0,10 0,10 10,0 10))".toList)⟩).1
    (5, 5) (by decide)

/-- C3.  Centroid-then-project: whenever a facility anchor derives from a
polygon, it equals the projection (`transform_point`) of the centroid
computed by `centroid_of` on the raw, un-projected planar vertex list
returned by `parse_polygon` — the single centroid point is projected after
the planar computation, never the other way around.  In particular the
square `POLYGON((0 0,10 0,10 10,0 10))` has planar centroid `(5, 5)`
before any projection. -/
theorem centroid_computed_before_projection :
    (∀ {Fid : Type} (transformer : ℚ × ℚ → ℚ × ℚ) (row : FacilityRow Fid)
        (ps : List (ℚ × ℚ)) (c : ℚ × ℚ),
        parse_polygon row.osm_original_geom = ps → centroid_of ps = some c →
        processRow transformer row
          = some (transform_point c.1 c.2 transformer, row.fid)) ∧
      centroid_of
          (parse_polygon (PyVal.pyStr ("POLYGON((0 0,10 0,10 10,0 10))".toList)))
        = some (5, 5) := by
  constructor
  · intro Fid transformer row ps c hps hc
    subst hps
    have h3 := centroid_of_length hc
    rcases hp : parse_polygon row.osm_original_geom with _ | ⟨a, l⟩
    · rw [hp] at h3; simp at h3
    · rw [hp] at hc
      simp [processRow, hp, hc]
  · decide

/-- Witness for C3 at the planar square, with the identity projection. -/
theorem centroid_computed_before_projection_witness :
    processRow (fun p => p)
        ⟨(7 : Nat), PyVal.pyNone, PyVal.pyStr ("POLYGON((0 0,10 0,10 10,0 10))".toList)⟩
      = some ((5, 5), 7) :=
  centroid_computed_before_projection.1 (fun p => p)
    ⟨(7 : Nat), PyVal.pyNone, PyVal.pyStr ("POLYGON((0 0,10 0,10 10,0 10))".toList)⟩
    _ (5, 5) rfl (by decide)

/-! ## Lemmas: the polygon pair loop -/

/-- The polygon pair loop (over full Python floats) equals a `filterMap`
of the independent per-pair conversion: each pair is handled on its own,
failures are skipped, and the surviving pairs keep their order. -/
lemma pairsLoopF_eq_filterMap (ps : List (List Char)) :
    pairsLoopF ps = ps.filterMap pairOfF := by
  suffices h : ∀ (qs : List (List Char)) (acc : List (PyFloat × PyFloat)),
      List.foldl
        (fun acc pair =>
          match psplitWs (pstrip pair) with
          | [a, b] =>
            match tokenFloatF a, tokenFloatF b with
            | some x, some y => acc ++ [(x, y)]
            | _, _ => acc
          | _ => acc)
        acc qs = acc ++ qs.filterMap pairOfF by
    simpa [pairsLoopF] using h ps []
  intro qs
  induction qs with
  | nil => intro acc; simp
  | cons q rest ih =>
    intro acc
    rw [List.foldl_cons, List.filterMap_cons]
    have hstep :
        (match psplitWs (pstrip q) with
          | [a, b] =>
            match tokenFloatF a, tokenFloatF b with
            | some x, some y => acc ++ [(x, y)]
            | _, _ => acc
          | _ => acc) = acc ++ (pairOfF q).toList := by
      unfold pairOfF
      rcases psplitWs (pstrip q) with _ | ⟨a, _ | ⟨b, _ | _⟩⟩
      · simp
      · simp
      · rcases h1 : tokenFloatF a with _ | x <;> rcases h2 : tokenFloatF b with _ | y <;>
          simp [h1, h2]
      · simp
    rw [hstep]
    cases hq : pairOfF q <;> simp [hq, ih]

/-- C5.  `parse_polygon` (faithfully, over full Python floats) on a string
whose (prefix-stripped) body matches `POLYGON((<coords>))` returns exactly
the in-order sub-list of comma-separated pairs whose tokens `float()`
converts — which includes `inf`/`nan`/underscore tokens — while a pair that
fails conversion is skipped without aborting and without discarding the
remaining pairs; and every input not matching the polygon shape yields the
empty list. -/
theorem polygon_pairs_skip_not_abort :
    (∀ (v : PyVal) (coords : List Char), polyBody v = some coords →
        parse_polygon_full v = (psplitOn ',' coords).filterMap pairOfF) ∧
      ∀ v : PyVal, polyBody v = none → parse_polygon_full v = [] := by
  constructor
  · intro v coords h
    simp [parse_polygon_full, h, pairsLoopF_eq_filterMap]
  · intro v h
    simp [parse_polygon_full, h]

/-- Witness for C5: the middle pair `1 x` fails conversion and is skipped,
while the pairs around it survive in order — including the `inf 0` pair,
which `float()` converts successfully and the program keeps. -/
theorem polygon_pairs_skip_not_abort_witness :
    parse_polygon_full (PyVal.pyStr ("POLYGON((0 0,1 x,inf 0))".toList))
      = (psplitOn ',' ("0 0,1 x,inf 0".toList)).filterMap pairOfF :=
  polygon_pairs_skip_not_abort.1
    (PyVal.pyStr ("POLYGON((0 0,1 x,inf 0))".toList)) ("0 0,1 x,inf 0".toList)
    (by decide)

/-- C9.  If the facility locator table comes out empty, the run reports
`emptyTable` — it terminates before any matching and never produces match
output. -/
theorem empty_table_no_matching {Fid : Type} (transformer : ℚ × ℚ → ℚ × ℚ)
    (facilityRows : List (FacilityRow Fid)) (queryRows : List QueryRow)
    (h : buildNraPoints transformer facilityRows = []) :
    mainRun transformer facilityRows queryRows = RunResult.emptyTable ∧
      ∀ rs, mainRun transformer facilityRows queryRows ≠ RunResult.output rs := by
  have he : (buildNraPoints transformer facilityRows).isEmpty = true := by
    rw [h]; rfl
  constructor
  · simp [mainRun, he]
  · intro rs
    simp [mainRun, he]

/-- Witness for C9 with an empty facility dataset. -/
theorem empty_table_no_matching_witness :
    mainRun (fun p => p) ([] : List (FacilityRow Nat)) [] = RunResult.emptyTable ∧
      ∀ rs, mainRun (fun p => p) ([] : List (FacilityRow Nat)) []
        ≠ RunResult.output rs :=
  empty_table_no_matching (fun p => p) [] [] rfl

/-- C10.  Both parsers are total over arbitrary cell values: on any
non-string input (`None`, `NaN`, `±inf`, a number) `parse_point` returns
`none` and `parse_polygon` returns `[]`, without raising — the
`isinstance(wkt_string, str)` guards of src/app.py lines 27–28 and 48–49. -/
theorem parsers_total_on_nonstring (v : PyVal) (h : v.isStr = false) :
    parse_point v = none ∧ parse_polygon v = [] := by
  cases v
  case pyStr s => simp [PyVal.isStr] at h
  all_goals exact ⟨rfl, rfl⟩

/-- Witness for C10 at the `NaN` cell value (what pandas delivers for a
missing field). -/
theorem parsers_total_on_nonstring_witness :
    parse_point PyVal.pyNaN = none ∧ parse_polygon PyVal.pyNaN = [] :=
  parsers_total_on_nonstring PyVal.pyNaN rfl


/-! ## C8: query-row filtering -/

/-- C8 (amended).  Row filtering of the GPS loop, with `float()` modelled
in full (`toFloat?` accepts `inf`/`nan` words and underscore literals and
saturates overflowing decimals such as `1e309` to `inf`): a row whose
coordinate conversion raises, or whose converted coordinates contain a
NaN, is skipped and the batch continues; a row with two finite coordinates
produces exactly one match record, in row order; and when no row carries
an infinite coordinate the whole loop completes with exactly the records
of the surviving rows. -/
theorem gps_row_filtering :
    (∀ rows : List QueryRow,
        (∀ r ∈ rows, gpsRowOutcome r ≠ GpsRowOutcome.crash) →
        processGps rows = some (rows.filterMap recordOf)) ∧
    (∀ r : QueryRow,
        (toFloat? r.latitude = none ∨ toFloat? r.longitude = none) →
        gpsRowOutcome r = GpsRowOutcome.skipped) ∧
    (∀ (r : QueryRow) (la lo : PyFloat), toFloat? r.latitude = some la →
        toFloat? r.longitude = some lo → (la.isNaN || lo.isNaN) = true →
        gpsRowOutcome r = GpsRowOutcome.skipped) ∧
    (∀ (r : QueryRow) (a b : ℚ), toFloat? r.latitude = some (.num a) →
        toFloat? r.longitude = some (.num b) →
        gpsRowOutcome r = GpsRowOutcome.record a b ∧ recordOf r = some (a, b)) := by
  refine ⟨?_, ?_, ?_, ?_⟩
  · intro rows
    induction rows with
    | nil => intro _; simp [processGps]
    | cons r rest ih =>
      intro h
      have hr : gpsRowOutcome r ≠ GpsRowOutcome.crash :=
        h r (List.mem_cons_self r rest)
      have hrest := ih (fun q hq => h q (List.mem_cons_of_mem _ hq))
      cases ho : gpsRowOutcome r with
      | skipped => simp [processGps, ho, hrest, recordOf]
      | record a b => simp [processGps, ho, hrest, recordOf]
      | crash => exact absurd ho hr
  · intro r hor
    rcases hor with h | h
    · simp [gpsRowOutcome, h]
    · rcases hx : toFloat? r.latitude with _ | la <;> simp [gpsRowOutcome, h, hx]
  · intro r la lo h1 h2 hnan
    simp [gpsRowOutcome, h1, h2, hnan]
  · intro r a b h1 h2
    have hg : gpsRowOutcome r = GpsRowOutcome.record a b := by
      simp [gpsRowOutcome, h1, h2, PyFloat.isNaN]
    exact ⟨hg, by simp [recordOf, hg]⟩

/-- Counterexample to C8 as stated: a query row whose latitude is the
(perfectly convertible) string `inf` — or `1e309`, which `float()`
saturates to `inf` — is a non-finite coordinate, so the claim says it
produces no match record and processing of the remaining rows continues;
but the code only guards against NaN, so the row reaches `math.sin(inf)`,
which raises an uncaught `ValueError` and aborts the whole batch
(`processGps` = `none`): the row is neither skipped nor does processing
continue. -/
theorem gps_infinite_coordinate_not_dropped :
    gpsRowOutcome ⟨PyVal.pyStr ("inf".toList), PyVal.pyStr ("0".toList)⟩
        = GpsRowOutcome.crash ∧
      gpsRowOutcome ⟨PyVal.pyStr ("1e309".toList), PyVal.pyStr ("0".toList)⟩
        = GpsRowOutcome.crash ∧
      processGps [⟨PyVal.pyStr ("inf".toList), PyVal.pyStr ("0".toList)⟩] = none ∧
      processGps [⟨PyVal.pyStr ("1e309".toList), PyVal.pyStr ("0".toList)⟩]
        = none ∧
      GpsRowOutcome.crash ≠ GpsRowOutcome.skipped := by decide

/-- Witness for C8 (amended): a batch of two convertible rows — one of
them the underscore literal `1_5`, which `float()` converts to `15.0` —
and one non-convertible row completes, producing exactly the records of
the two convertible rows. -/
theorem gps_row_filtering_witness :
    processGps
        [⟨PyVal.pyStr ("48.85".toList), PyVal.pyStr ("2.35".toList)⟩,
          ⟨PyVal.pyStr ("1_5".toList), PyVal.pyStr ("0".toList)⟩,
          ⟨PyVal.pyStr ("abc".toList), PyVal.pyStr ("0".toList)⟩]
      = some
          (([⟨PyVal.pyStr ("48.85".toList), PyVal.pyStr ("2.35".toList)⟩,
            ⟨PyVal.pyStr ("1_5".toList), PyVal.pyStr ("0".toList)⟩,
            ⟨PyVal.pyStr ("abc".toList), PyVal.pyStr ("0".toList)⟩] :
              List QueryRow).filterMap recordOf) :=
  gps_row_filtering.1 _ (by decide)


/-! ## C4: exact shape of `parse_point` -/

/-- Dropping the final character of a one-element concatenation. -/
lemma pdropRight_one_concat (body : List Char) (c : Char) :
    pdropRight 1 (body ++ [c]) = body := by
  simp [pdropRight]

/-- A string that passes both the `startswith("POINT(")` and the
`endswith(")")` check decomposes as `POINT(` ++ body ++ `)`. -/
lemma point_shape_decomp {t : List Char}
    (hpre : (("POINT(".toList).isPrefixOf t) = true)
    (hsuf : (([')']).isSuffixOf t) = true) :
    ∃ body, t = ("POINT(".toList) ++ body ++ [')'] := by
  obtain ⟨r, hr⟩ := List.isPrefixOf_iff_prefix.mp hpre
  obtain ⟨i, hi⟩ := List.isSuffixOf_iff_suffix.mp hsuf
  rcases List.eq_nil_or_concat r with hr0 | ⟨body, c, hbc⟩
  · subst hr0
    rw [List.append_nil] at hr
    rw [← hr] at hi
    have h1 := congrArg List.getLast? hi
    rw [List.getLast?_concat] at h1
    simp at h1
  · subst hbc
    rw [List.concat_eq_append] at hr
    have hc : c = ')' := by
      have h1 := congrArg List.getLast? hr
      rw [← List.append_assoc, List.getLast?_concat] at h1
      rw [← hi, List.getLast?_concat] at h1
      simpa using h1
    subst hc
    exact ⟨body, by rw [← hr, List.append_assoc]⟩

/-- Counterexample to C4 as stated: the tokens of `POINT((1 2))` are `(1`
and `2)`, which are not numeric (`float()` rejects both) — by the claim the
parse must be absent — yet the program strips the surrounding parentheses
with `strip("()")` before converting and returns `(1.0, 2.0)`.
`pointSpec` is the claim's shape, written without the paren-stripping. -/
theorem point_paren_tokens_accepted :
    parse_point_full (PyVal.pyStr ("POINT((1 2))".toList))
        = some (.num 1, .num 2) ∧
      pointSpec (PyVal.pyStr ("POINT((1 2))".toList)) = none := by decide

/-- C4 (amended).  `parse_point` (faithfully, over full Python floats)
returns a pair exactly on the strings that, after trimming, decompose as
`POINT(<t1> <t2>)` with exactly two whitespace-separated tokens that
`float()` accepts after stripping any leading/trailing parentheses — the
values may be non-finite floats, as in `POINT(inf 0)`; every other string
yields `none` (the `←` direction of the characterization), and no input
raises since a caught `ValueError` is the `none` branch. -/
theorem parse_point_characterization (s : List Char) (x y : PyFloat) :
    parse_point_full (PyVal.pyStr s) = some (x, y) ↔
      ∃ body t1 t2,
        pstrip s = ("POINT(".toList) ++ body ++ [')'] ∧
        psplitWs (pstrip body) = [t1, t2] ∧
        pyFloatF (pstripParens t1) = some x ∧
        pyFloatF (pstripParens t2) = some y := by
  constructor
  · intro h
    simp only [parse_point_full] at h
    by_cases hc : ((("POINT(".toList).isPrefixOf (pstrip s))
        && (([')']).isSuffixOf (pstrip s))) = true
    · obtain ⟨hpre, hsuf⟩ := Bool.and_eq_true_iff.mp hc
      obtain ⟨body, hbody⟩ := point_shape_decomp hpre hsuf
      have hslice : pdropRight 1 ((pstrip s).drop 6) = body := by
        rw [hbody, List.append_assoc]
        rw [show ("POINT(".toList ++ (body ++ [')'])).drop 6 = body ++ [')'] from
          List.drop_left "POINT(".toList (body ++ [')'])]
        exact pdropRight_one_concat body ')'
      rw [if_pos hc, hslice] at h
      rcases hsp : psplitWs (pstrip body) with _ | ⟨t1, _ | ⟨t2, _ | _⟩⟩ <;>
        rw [hsp] at h
      · simp at h
      · simp at h
      · rcases h1 : tokenFloatF t1 with _ | x' <;> rcases h2 : tokenFloatF t2 with _ | y' <;>
          simp only [h1, h2] at h <;> simp at h
        obtain ⟨hx, hy⟩ := h
        subst hx; subst hy
        exact ⟨body, t1, t2, hbody, hsp, h1, h2⟩
      · simp at h
    · rw [if_neg hc] at h
      simp at h
  · rintro ⟨body, t1, t2, hdec, hsplit, h1, h2⟩
    have hpre : (("POINT(".toList).isPrefixOf (pstrip s)) = true :=
      List.isPrefixOf_iff_prefix.mpr ⟨body ++ [')'], by rw [hdec, List.append_assoc]⟩
    have hsuf : (([')']).isSuffixOf (pstrip s)) = true :=
      List.isSuffixOf_iff_suffix.mpr ⟨("POINT(".toList) ++ body, by rw [hdec]⟩
    have hc : ((("POINT(".toList).isPrefixOf (pstrip s))
        && (([')']).isSuffixOf (pstrip s))) = true := by
      rw [hpre, hsuf]; rfl
    have hslice : pdropRight 1 ((pstrip s).drop 6) = body := by
      rw [hdec, List.append_assoc]
      rw [show ("POINT(".toList ++ (body ++ [')'])).drop 6 = body ++ [')'] from
        List.drop_left "POINT(".toList (body ++ [')'])]
      exact pdropRight_one_concat body ')'
    simp only [parse_point_full]
    rw [if_pos hc, hslice, hsplit]
    simp [tokenFloatF] at h1 h2 ⊢
    rw [h1, h2]


/-! ## C6: the coordinate-system prefix -/

/-- `dropWhile` distributes over an append whose boundary element does not
satisfy the predicate. -/
lemma dropWhile_append_cons {p : Char → Bool} {c : Char} (hc : p c = false)
    (A B : List Char) :
    (A ++ c :: B).dropWhile p = A.dropWhile p ++ c :: B := by
  induction A with
  | nil => simp [List.dropWhile_cons, hc]
  | cons a A ih =>
    by_cases ha : p a
    · simp [List.dropWhile_cons, ha, ih]
    · simp [List.dropWhile_cons, ha]

/-- The right strip passes over an interior non-stripped character. -/
lemma pstripR_append_cons {p : Char → Bool} {c : Char} (hc : p c = false)
    (A B : List Char) :
    pstripR p (A ++ c :: B) = A ++ c :: pstripR p B := by
  unfold pstripR
  rw [show A ++ c :: B = A ++ (c :: B) from rfl]
  rw [List.reverse_append, List.reverse_cons, List.append_assoc,
    List.singleton_append, dropWhile_append_cons hc, List.reverse_append,
    List.reverse_cons, List.reverse_reverse, List.append_assoc,
    List.singleton_append]

/-- `dropWhile` is idempotent. -/
lemma dropWhile_idem (p : Char → Bool) (l : List Char) :
    (l.dropWhile p).dropWhile p = l.dropWhile p := by
  induction l with
  | nil => rfl
  | cons a l ih =>
    by_cases ha : p a
    · simp [List.dropWhile_cons, ha, ih]
    · simp [List.dropWhile_cons, ha]

/-- The right strip is idempotent. -/
lemma pstripR_idem (p : Char → Bool) (l : List Char) :
    pstripR p (pstripR p l) = pstripR p l := by
  unfold pstripR
  rw [List.reverse_reverse, dropWhile_idem]

/-- `split(sep, 1)[1]` of a string whose first separator occurrence is the
marked one returns exactly what follows it. -/
lemma afterFirstChar_append {c : Char} {P : List Char} (h : c ∉ P)
    (R : List Char) : afterFirstChar c (P ++ c :: R) = R := by
  induction P with
  | nil => simp [afterFirstChar]
  | cons a P ih =>
    have ha : ¬ a = c := fun he => h (he ▸ List.mem_cons_self a P)
    have hP : c ∉ P := fun hm => h (List.mem_cons_of_mem a hm)
    simp only [List.cons_append, afterFirstChar]
    rw [if_neg ha]
    exact ih hP

/-- Counterexample to C6 as stated: the claim quantifies over every prefix
and every valid polygon string s.  First failure: a prefix containing `;`
(here `a;b`) makes `split(";", 1)` cut inside the prefix, so the parse
collapses to `[]` while the unprefixed parse succeeds.  Second failure: a
polygon string that is itself already SRID-prefixed (valid per the spec's
format) loses its polygon when another prefix is added. -/
theorem polygon_prefix_invariance_cex :
    (parse_polygon (PyVal.pyStr (("a;b".toList) ++ ';' :: ("POLYGON((0 0,1 0,1 1))".toList)))
        ≠ parse_polygon (PyVal.pyStr ("POLYGON((0 0,1 0,1 1))".toList))) ∧
      (parse_polygon
          (PyVal.pyStr (("x".toList) ++ ';' :: ("SRID=3857;POLYGON((0 0,1 0,1 1))".toList)))
        ≠ parse_polygon (PyVal.pyStr ("SRID=3857;POLYGON((0 0,1 0,1 1))".toList))) := by
  decide

/-- C6 (amended).  For every prefix and every polygon string that both
contain no `;` of their own, prefixing with `<prefix>;` does not change the
parse result: the prefix is stripped unvalidated and the remainder is
parsed exactly as the bare string. -/
theorem polygon_prefix_invariance_semifree (pre s : List Char)
    (hp : ';' ∉ pre) (hs : ';' ∉ s) :
    parse_polygon (PyVal.pyStr (pre ++ ';' :: s)) = parse_polygon (PyVal.pyStr s) := by
  suffices h : polyBody (PyVal.pyStr (pre ++ ';' :: s)) = polyBody (PyVal.pyStr s) by
    simp [parse_polygon, h]
  have hws : Char.isWhitespace ';' = false := by decide
  have hL : pstrip (pre ++ ';' :: s)
      = pre.dropWhile Char.isWhitespace ++ ';' :: pstripR Char.isWhitespace s := by
    unfold pstrip pstripBy
    rw [pstripR_append_cons hws, dropWhile_append_cons hws]
  have hmemL : ';' ∈ pstrip (pre ++ ';' :: s) := by
    rw [hL]
    exact List.mem_append_right _ (List.mem_cons_self _ _)
  have hsubP : ';' ∉ pre.dropWhile Char.isWhitespace :=
    fun hm => hp (List.dropWhile_subset _ hm)
  have hafter : afterFirstChar ';' (pstrip (pre ++ ';' :: s))
      = pstripR Char.isWhitespace s := by
    rw [hL]
    exact afterFirstChar_append hsubP _
  have hstrip2 : pstrip (pstripR Char.isWhitespace s) = pstrip s := by
    unfold pstrip pstripBy
    rw [pstripR_idem]
  have hsubS : ';' ∉ pstrip s := by
    intro hm
    apply hs
    unfold pstrip pstripBy pstripR at hm
    have h1 := List.dropWhile_subset _ hm
    rw [List.mem_reverse] at h1
    have h2 := List.dropWhile_subset _ h1
    rwa [List.mem_reverse] at h2
  simp only [polyBody]
  rw [if_pos hmemL, hafter, hstrip2, if_neg hsubS]

/-- Witness for C6 (amended) on a concrete SRID prefix. -/
theorem polygon_prefix_invariance_semifree_witness :
    parse_polygon
        (PyVal.pyStr (("SRID=3857".toList) ++ ';' :: ("POLYGON((0 0,1 0,1 1))".toList)))
      = parse_polygon (PyVal.pyStr ("POLYGON((0 0,1 0,1 1))".toList)) :=
  polygon_prefix_invariance_semifree ("SRID=3857".toList)
    ("POLYGON((0 0,1 0,1 1))".toList) (by decide) (by decide)

end RatReducible
